import Mathlib

/-!
Verification development for the Coach-tool fill-in recommendation engine.

The definitions below are a shallow embedding of the recommendation /
eligibility core of the repository:

* `supabase/functions/get-optimal-fill-ins/index.ts` (src/unnamed/part_000):
  server-side `checkPairingRuleViolation`, `getStudentDetails`,
  `isStudentAvailable`, `isStudentBlocked`, and the per-slot greedy
  recommender inside `serve`.
* `js/utils.js`: client-side `getStudentDetails`, `parseTime`, `formatTime`,
  `parseAvailability`, `isStudentAvailable`, `checkPairingRuleViolation`.
* `js/logViewer.js` `isStudentBlocked` (line-identical in logic to the
  server-side copy; embedded once as `isStudentBlocked`).
* `js/schedule.js` effective-capacity computation (lines 97-111).

JavaScript dynamic values are modelled with `Option`: a missing or
non-numeric field is `none`; a nullable string field is `Option String`.
String truthiness (`""` and `null` are falsy) is modelled explicitly.
Numbers are `Int` (the engine only does integer arithmetic on them).
All string processing is done over `List Char` so every definition
reduces in the kernel.
-/

namespace CoachTool

/-- Truthiness of a JS string-or-null value: `null`, `undefined` and `""` are falsy. -/
def jsTruthy (o : Option String) : Bool :=
  match o with
  | some s => s ≠ ""
  | none => false

/-- Evaluation of the JS idiom `x || null` on a string field: a falsy value collapses to null. -/
def normSub (o : Option String) : Option String :=
  match o with
  | some s => if s = "" then none else some s
  | none => none

/-- Evaluation of the JS idiom `a || b` on string-or-null values. -/
def jsOrStr (a b : Option String) : Option String :=
  if jsTruthy a then a else b

/-- Whitespace set used by JS `trim` and `\s` (ASCII part; all inputs here are ASCII). -/
def isJsWs (c : Char) : Bool :=
  c = ' ' || c = '\t' || c = '\n' || c = '\r' || c = '\x0b' || c = '\x0c'

/-- Trim JS-style whitespace from both ends of a character list. -/
def trimChars (cs : List Char) : List Char :=
  ((cs.dropWhile isJsWs).reverse.dropWhile isJsWs).reverse

/-- String trim (JS `String.prototype.trim`). -/
def sTrim (s : String) : String :=
  String.mk (trimChars s.data)

/-- String lower-casing (JS `toLowerCase`; ASCII inputs). -/
def sLower (s : String) : String :=
  String.mk (s.data.map Char.toLower)

/-- JS `substring(0, n)`. -/
def sTake (s : String) (n : Nat) : String :=
  String.mk (s.data.take n)

/-- JS `substring(n)`. -/
def sDrop (s : String) (n : Nat) : String :=
  String.mk (s.data.drop n)

/-- JS string `length`. -/
def sLen (s : String) : Nat :=
  s.data.length

/-- Tests whether the second list begins with the first (JS `startsWith`, over chars). -/
def leadMatch : List Char → List Char → Bool
  | [], _ => true
  | _ :: _, [] => false
  | p :: ps, x :: xs => p = x && leadMatch ps xs

/-- JS `a.startsWith(b)`. -/
def sStarts (a b : String) : Bool :=
  leadMatch b.data a.data

/-- JS `String.prototype.split` on a single separator character (keeps empty pieces). -/
def splitOnChAux (sep : Char) : List Char → List Char → List (List Char)
  | [], acc => [acc.reverse]
  | c :: rest, acc =>
    if c = sep then acc.reverse :: splitOnChAux sep rest []
    else splitOnChAux sep rest (c :: acc)

/-- Split a string on a separator character, JS `split` semantics. -/
def splitCh (sep : Char) (s : String) : List String :=
  (splitOnChAux sep s.data []).map String.mk

/-- Numeric value of a list of decimal digit characters (JS `parseInt` on a digit run). -/
def digitsVal (ds : List Char) : Nat :=
  ds.foldl (fun a c => a * 10 + (c.toNat - 48)) 0

/-- JS `parseInt` on a string (radix 10): optional whitespace and sign, then a
leading digit run; no digits gives `NaN`, modelled as `none`. -/
def parseIntJS (s : String) : Option Int :=
  let cs := s.data.dropWhile isJsWs
  let (neg, cs) : Bool × List Char :=
    match cs with
    | '-' :: rest => (true, rest)
    | '+' :: rest => (false, rest)
    | _ => (false, cs)
  let ds := cs.takeWhile Char.isDigit
  if ds.isEmpty then none
  else some (if neg then -(digitsVal ds : Int) else (digitsVal ds : Int))

/-! ### Pairing/Grouping Rule Checker

Two versions exist in the source.  Inputs are modelled as the dynamic
values the JS functions actually receive: the candidate may be null or
lack a numeric `groupOf` (`Option PairStudent` with `groupOf : Option Int`),
the occupant argument may not be an array (`Option (List PairStudent)`),
and the capacity may not be a number (`Option Int`). -/

/-- Dynamic student value as seen by the pairing checkers: only `groupOf`
and `sub_group` are inspected; either may be missing. -/
structure PairStudent where
  groupOf : Option Int := none
  sub_group : Option String := none
deriving DecidableEq

/-- Count of solo students among potential occupants, a missing `groupOf`
defaulting to 1 (the `forEach` of index.ts lines 69-72). -/
def countSolo (xs : List PairStudent) : Nat :=
  xs.countP (fun d => d.groupOf.getD 1 = 1)

/-- Count of paired students among potential occupants. -/
def countPaired (xs : List PairStudent) : Nat :=
  xs.countP (fun d => d.groupOf.getD 1 = 2)

/-- Server-side `checkPairingRuleViolation`
(supabase/functions/get-optimal-fill-ins/index.ts lines 61-76).
Returns the `violation` flag and the `reason` string (empty on success). -/
def checkPairingRuleViolationS (cand : Option PairStudent)
    (occ : Option (List PairStudent)) (capacity : Option Int) : Bool × String :=
  match cand with
  | none => (true, "Invalid candidate data.")
  | some c =>
    match c.groupOf with
    | none => (true, "Invalid candidate data.")
    | some _ =>
      match occ with
      | none => (true, "Invalid current occupants data.")
      | some occupants =>
        match capacity with
        | none => (true, "Invalid slot capacity.")
        | some cap =>
          if cap < 1 then (true, "Invalid slot capacity.")
          else
            let potential := occupants ++ [c]
            let count : Int := potential.length
            if count > cap then
              (true, "Slot capacity (" ++ toString cap ++ ") would be exceeded")
            else
              let soloCount := countSolo potential
              let pairedCount := countPaired potential
              if soloCount > 0 ∧ count > 1 then
                (true, "Solo lessons cannot have other students")
              else if soloCount = 0 ∧ pairedCount > 0 ∧ count > 2 then
                (true, "Paired lessons cannot exceed 2 students")
              else (false, "")

/-- Deduplication that keeps the first occurrence of each element, matching
the insertion order of a JS `Set`. -/
def dedupFirstAux {α : Type} [DecidableEq α] (seen : List α) : List α → List α
  | [] => []
  | a :: l =>
    if seen.contains a then dedupFirstAux seen l
    else a :: dedupFirstAux (a :: seen) l

/-- Deduplication in first-occurrence order (JS `Set` iteration order). -/
def dedupFirst {α : Type} [DecidableEq α] (l : List α) : List α :=
  dedupFirstAux [] l

/-- Distinct numeric `groupOf` values among the occupants, in first-occurrence
order (JS `new Set(map(occ => occ?.groupOf).filter(typeof number))`). -/
def groupTypes (occupants : List PairStudent) : List Int :=
  dedupFirst (occupants.filterMap (·.groupOf))

/-- Non-null occupant sub-groups, deduplicated in first-occurrence order
(JS `new Set(map(occ => occ?.sub_group || null).filter(sg => sg !== null))`). -/
def occupantSubGroups (occupants : List PairStudent) : List String :=
  dedupFirst (occupants.filterMap (fun o => normSub o.sub_group))

/-- Client-side `checkPairingRuleViolation` (js/utils.js lines 280-350).
The reason is `none` on success.  Reason texts follow the source, with the
two interpolated sub-group names of the mixing reason elided. -/
def checkPairingRuleViolationC (cand : Option PairStudent)
    (occ : Option (List PairStudent)) (capacity : Option Int) : Bool × Option String :=
  match cand with
  | none => (true, some "Invalid new student data.")
  | some c =>
    match c.groupOf with
    | none => (true, some "Invalid new student data.")
    | some g =>
      match occ with
      | none => (true, some "Invalid current occupants data.")
      | some occupants =>
        match capacity with
        | none => (true, some "Invalid slot capacity.")
        | some cap =>
          if cap < 1 then (true, some "Invalid slot capacity.")
          else
            let currentOccupants : Int := occupants.length
            let newTotal : Int := currentOccupants + 1
            if newTotal > cap then
              (true, some ("Adding student exceeds slot capacity (" ++ toString cap ++ ")."))
            else
              let types := groupTypes occupants
              let sizeViolation : Option String :=
                if g = 1 then
                  if currentOccupants > 0 then
                    some "Cannot add a Solo student to an occupied slot."
                  else none
                else if g = 2 then
                  if types.contains 1 then
                    some "Cannot add Paired student to a Solo slot."
                  else if types ≠ [] ∧ ¬ types.contains 2 then
                    some "Cannot mix Paired students with Group students."
                  else if newTotal > 2 ∧ currentOccupants > 0 then
                    some "Cannot exceed 2 students in a Paired slot."
                  else none
                else
                  if types.contains 1 then
                    some "Cannot add Group student to a Solo slot."
                  else if types.contains 2 then
                    some "Cannot add Group student to a Paired slot."
                  else none
              match sizeViolation with
              | some r => (true, some r)
              | none =>
                let newSub := normSub c.sub_group
                match occupantSubGroups occupants with
                | [] => (false, none)
                | established :: _ =>
                  if newSub ≠ none ∧ newSub ≠ some established then
                    (true, some "Cannot mix sub-groups with the established sub-group.")
                  else (false, none)

/-! ### Server-side student data model and lookup -/

/-- Raw row of the `students` table as fetched by the edge function
(`id, Name, groupOf, sub_group, "lessons owed", availability_string,
class_name`).  A `none` field is missing, null, or (for numbers) non-numeric. -/
structure StudentRow where
  id : Int
  Name : Option String := none
  name : Option String := none
  groupOf : Option Int := none
  sub_group : Option String := none
  lessons_owed : Option Int := none
  availability_string : Option String := none
  class_name : Option String := none
deriving DecidableEq

/-- Normalised student details produced by the server-side `getStudentDetails`
(index.ts lines 78-91). -/
structure StudentDetails where
  id : Int
  name : String
  groupOf : Int
  subGroup : Option String
  lessons_owed : Int
  availability_string : Option String := none
  class_name : Option String := none
deriving DecidableEq

/-- Server-side `getStudentDetails` (index.ts lines 78-91): find the row by id
and build a fresh normalised snapshot; `none` when the id is not in the data. -/
def getStudentDetailsS (studentId : Int) (allStudentsData : List StudentRow) :
    Option StudentDetails :=
  match allStudentsData.find? (fun s => s.id = studentId) with
  | none => none
  | some s =>
    some { id := s.id
           name := (jsOrStr s.Name (jsOrStr s.name (some "Unknown Student"))).getD ""
           groupOf := s.groupOf.getD 1
           subGroup := normSub s.sub_group
           lessons_owed := s.lessons_owed.getD 0
           availability_string := s.availability_string
           class_name := s.class_name }

/-! ### Block Model -/

/-- Row of the `daily_blocks` table. -/
structure DailyBlock where
  block_date : String
  block_type : String
  identifier : Option String := none
deriving DecidableEq

/-- One block of the loop body of `isStudentBlocked`: does this block (already
known to be on the right date) apply to the student? -/
def blockApplies (classNm : Option String) (coachId : Int) (b : DailyBlock) : Bool :=
  if b.block_type = "Public Holiday" then true
  else if b.block_type = "Year Level Absence" then
    jsTruthy b.identifier && jsTruthy classNm &&
      sStarts (classNm.getD "") (b.identifier.getD "")
  else if b.block_type = "Class Absence" then
    jsTruthy b.identifier && jsTruthy classNm &&
      decide (classNm.getD "" = b.identifier.getD "")
  else if b.block_type = "Coach Unavailable" then
    jsTruthy b.identifier && decide (parseIntJS (b.identifier.getD "") = some coachId)
  else false

/-- `isStudentBlocked` (index.ts lines 136-173; the copy in js/logViewer.js
lines 524-545 is logic-identical).  A falsy `blockDate` (null, undefined or
the empty string) short-circuits to `false`. -/
def isStudentBlocked (st : StudentDetails) (blockDate : Option String)
    (coachId : Int) (blocks : List DailyBlock) : Bool :=
  if ¬ jsTruthy blockDate then false
  else blocks.any (fun b =>
    b.block_date = blockDate.getD "" && blockApplies st.class_name coachId b)

/-! ### Server-side Availability Model (the simple dialect, index.ts 93-126) -/

/-- Tests the regex `^\d\x7b2\x7d:\d\x7b2\x7d$` (HH:MM). -/
def isHHMM (s : String) : Bool :=
  match s.data with
  | [a, b, c, d, e] => a.isDigit && b.isDigit && c = ':' && d.isDigit && e.isDigit
  | _ => false

/-- Capitalised day names, as in the server parser. -/
def validDaysS : List String :=
  ["Monday", "Tuesday", "Wednesday", "Thursday", "Friday", "Saturday", "Sunday"]

/-- Append a time to a day entry, creating the entry if needed and skipping
duplicates (mirrors the `availability[day]` array pushes in index.ts). -/
def addAvail (avail : List (String × List String)) (day time : String) :
    List (String × List String) :=
  match avail.find? (fun p => p.1 = day) with
  | none => avail ++ [(day, [time])]
  | some _ =>
    avail.map (fun p =>
      if p.1 = day then (p.1, if p.2.contains time then p.2 else p.2 ++ [time]) else p)

/-- Fold of the server parser over the `split(';')` entries, threading the
current-day state (index.ts lines 103-120). -/
def buildAvailS : List String → Option String → List (String × List String) →
    List (String × List String)
  | [], _, avail => avail
  | e :: rest, currentDay, avail =>
    let entry := sTrim e
    if entry = "" then buildAvailS rest currentDay avail
    else
      match validDaysS.find? (fun d => sStarts entry (d ++ ":")) with
      | some day =>
        let timePart := sTake (sTrim (sDrop entry (sLen day + 1))) 5
        if isHHMM timePart then buildAvailS rest (some day) (addAvail avail day timePart)
        else buildAvailS rest (some day) avail
      | none =>
        match currentDay with
        | some day =>
          let timePart := sTake entry 5
          if isHHMM timePart then buildAvailS rest currentDay (addAvail avail day timePart)
          else buildAvailS rest currentDay avail
        | none => buildAvailS rest currentDay avail

/-- Server-side `isStudentAvailable` (index.ts lines 93-126). -/
def isStudentAvailableS (availabilityString : Option String)
    (targetDay targetTime : String) : Bool :=
  if ¬ jsTruthy availabilityString ∨ targetDay = "" ∨ targetTime = "" ∨
      sLen targetTime < 5 then false
  else
    let targetTimeHHMM := sTake targetTime 5
    if ¬ isHHMM targetTimeHHMM then false
    else
      let avail := buildAvailS (splitCh ';' (availabilityString.getD "")) none []
      match avail.find? (fun p => p.1 = targetDay) with
      | some p => p.2.contains targetTimeHHMM
      | none => false

/-! ### Slot Recommender (the per-slot core of `serve`, index.ts 256-319) -/

/-- Slot record returned by the `get_slots_needing_fillins_v2` RPC.  The
`slot_date` is typed as a string upstream but can be absent at runtime
(the known upstream inconsistency), hence `Option`. -/
structure SlotInfo where
  schedule_id : Int
  day_of_week : String
  start_time : String
  capacity : Int
  coach_id : Int
  original_student_ids : List Int
  current_occupants : Int
  slot_date : Option String := none
deriving DecidableEq

/-- Output snapshot for one recommended fill-in. -/
structure RecommendedGroupMember where
  student_id : Int
  name : String
  lessons_owed : Int
  groupOf : Int
  subGroup : Option String
deriving DecidableEq

/-- Output for one slot: the slot fields plus the recommended group. -/
structure ResultSlot extends SlotInfo where
  recommended_group : List RecommendedGroupMember
deriving DecidableEq

/-- View of normalised student details as a pairing-checker input. -/
def toPair (d : StudentDetails) : PairStudent :=
  { groupOf := some d.groupOf, sub_group := d.subGroup }

/-- Snapshot pushed into `recommended_group` (index.ts lines 303-306). -/
def toMember (d : StudentDetails) : RecommendedGroupMember :=
  { student_id := d.id, name := d.name, lessons_owed := d.lessons_owed,
    groupOf := d.groupOf, subGroup := d.subGroup }

/-- Details of the slot's original students that resolve in the roster
(index.ts lines 262-264). -/
def existingDetails (slot : SlotInfo) (allStudentsData : List StudentRow) :
    List StudentDetails :=
  slot.original_student_ids.filterMap (fun i => getStudentDetailsS i allStudentsData)

/-- Sub-group established by the slot's original students: the first resolved
original's sub-group, if truthy (index.ts lines 266-269). -/
def targetSubGroupOf (existing : List StudentDetails) : Option String :=
  match existing with
  | [] => none
  | e :: _ => e.subGroup

/-- Sub-group gate of the candidate filter, index.ts line 278:
`targetSubGroup !== null && candDetails.subGroup !== targetSubGroup` excludes
the candidate. -/
def subGroupGate (targetSubGroup candSubGroup : Option String) : Bool :=
  match targetSubGroup with
  | none => true
  | some t => candSubGroup = some t

/-- Per-candidate predicate of the `candidatesForSlot` filter
(index.ts lines 272-288). -/
def passesSlotFilter (slot : SlotInfo) (targetSubGroup : Option String)
    (blocks : List DailyBlock) (cd : StudentDetails) : Bool :=
  ¬ slot.original_student_ids.contains cd.id &&
  isStudentAvailableS cd.availability_string slot.day_of_week slot.start_time &&
  subGroupGate targetSubGroup cd.subGroup &&
  ¬ isStudentBlocked cd slot.slot_date slot.coach_id blocks

/-- Eligible candidate pool for one slot (index.ts lines 250-288): students
with positive owed lessons, re-resolved through `getStudentDetails`, then
filtered by roster membership, availability, sub-group and daily blocks. -/
def candidatesForSlot (slot : SlotInfo) (allStudentsData : List StudentRow)
    (blocks : List DailyBlock) (targetSubGroup : Option String) :
    List StudentDetails :=
  let potential := allStudentsData.filter (fun s => s.lessons_owed.getD 0 > 0)
  (potential.filterMap (fun c => getStudentDetailsS c.id allStudentsData)).filter
    (passesSlotFilter slot targetSubGroup blocks)

/-- Stable insertion of a candidate into a list already sorted by descending
`lessons_owed`: an earlier candidate stays ahead of later ones with equal owed. -/
def insertDesc (x : StudentDetails) : List StudentDetails → List StudentDetails
  | [] => [x]
  | y :: ys => if x.lessons_owed ≥ y.lessons_owed then x :: y :: ys else y :: insertDesc x ys

/-- The sort `candidatesForSlot.sort((a, b) => b.lessons_owed - a.lessons_owed)`
(index.ts line 290).  The JS engine sort is stable, and a stable sort under a
total preorder has a unique result, so stable insertion sort computes it. -/
def sortCandidates : List StudentDetails → List StudentDetails
  | [] => []
  | x :: xs => insertDesc x (sortCandidates xs)

/-- Greedy fill loop (index.ts lines 292-312), threading the recommended
group, the running test-occupant list and the compulsory sub-group. -/
def greedyFill (capacity needed : Int) :
    List StudentDetails → List RecommendedGroupMember → List StudentDetails →
    Option String → List RecommendedGroupMember
  | [], recs, _, _ => recs
  | c :: rest, recs, occ, comp =>
    if (recs.length : Int) ≥ needed then recs
    else if (match comp with
             | some t => decide (c.subGroup ≠ some t)
             | none => false) then
      greedyFill capacity needed rest recs occ comp
    else if (checkPairingRuleViolationS (some (toPair c)) (some (occ.map toPair))
              (some capacity)).1 then
      greedyFill capacity needed rest recs occ comp
    else
      greedyFill capacity needed rest (recs ++ [toMember c]) (occ ++ [c])
        (if (recs ++ [toMember c]).length = 1 ∧ comp = none ∧ c.subGroup ≠ none
         then c.subGroup else comp)

/-- Processing of one slot inside `serve` (index.ts lines 256-319): `none`
models the `continue` for slots with no needed count; otherwise the slot is
emitted with its recommended group and a truncated start time. -/
def processSlot (slot : SlotInfo) (allStudentsData : List StudentRow)
    (blocks : List DailyBlock) : Option ResultSlot :=
  let neededCount := slot.capacity - slot.current_occupants
  if neededCount ≤ 0 then none
  else
    let existing := existingDetails slot allStudentsData
    let targetSubGroup := targetSubGroupOf existing
    let cands := sortCandidates (candidatesForSlot slot allStudentsData blocks targetSubGroup)
    let recs := greedyFill slot.capacity neededCount cands [] existing targetSubGroup
    some { slot with start_time := sTake slot.start_time 5, recommended_group := recs }

/-- Modelled from the spec and the claim text: effective capacity of a slot is
1 if any original occupant is solo, 2 if any is paired, else the stored
capacity (the quantity js/schedule.js lines 97-111 computes from the original
students' groupOf). -/
def effectiveCapacitySpec (existing : List StudentDetails) (storedCapacity : Int) : Int :=
  if existing.any (fun d => d.groupOf = 1) then 1
  else if existing.any (fun d => d.groupOf = 2) then 2
  else storedCapacity

/-- Modelled from the claim text of C3: the sub-group gate is claimed to
exclude exactly candidates whose sub-group is non-null and different from the
established one, with null sub-groups always passing. -/
def subGroupGateSpec (targetSubGroup candSubGroup : Option String) : Bool :=
  match targetSubGroup, candSubGroup with
  | some t, some c => c = t
  | _, _ => true

/-- Modelled from the claim text of C5: a YearLevelAbsence block is claimed to
block exactly when its identifier is non-null and the className starts with it
(given the block is on the target date). -/
def yearLevelBlockedSpec (classNm : Option String) (b : DailyBlock) : Bool :=
  match b.identifier, classNm with
  | some i, some c => sStarts c i
  | _, _ => false

/-! ### Client-side Availability Model (js/utils.js, the dialect with ranges)

Times are modelled as minutes after midnight (the JS code stores them in a
`Date` and only ever reads back hours and minutes). -/

/-- Optional am/pm tail after optional whitespace, then end of input
(the regex tail `\s*(am|pm)?$`): `none` inner value means no period. -/
def parseAmPm (cs : List Char) : Option (Option Bool) :=
  match cs.dropWhile isJsWs with
  | [] => some none
  | ['a', 'm'] => some (some false)
  | ['p', 'm'] => some (some true)
  | _ => none

/-- Core match of `parseTime` (js/utils.js lines 85-119) on the trimmed,
lower-cased characters: hours, minutes and the am/pm flag, trying in order
the `H:MM:SS`, `H:MM` and `HHMM` shapes. -/
def parseTimeCore (cs : List Char) : Option (Nat × Nat × Option Bool) :=
  let ds := cs.takeWhile Char.isDigit
  let rest := cs.dropWhile Char.isDigit
  if ds.length = 1 ∨ ds.length = 2 then
    match rest with
    | ':' :: r1 =>
      let m := r1.takeWhile Char.isDigit
      let r2 := r1.dropWhile Char.isDigit
      if m.length ≠ 2 then none
      else
        match r2 with
        | ':' :: r3 =>
          let sec := r3.takeWhile Char.isDigit
          let r4 := r3.dropWhile Char.isDigit
          if sec.length ≠ 2 then none
          else (parseAmPm r4).map (fun p => (digitsVal ds, digitsVal m, p))
        | _ => (parseAmPm r2).map (fun p => (digitsVal ds, digitsVal m, p))
    | _ => none
  else if ds.length = 4 ∧ rest = [] then
    some (digitsVal (ds.take 2), digitsVal (ds.drop 2), none)
  else none

/-- Client-side `parseTime` (js/utils.js lines 85-130): minutes after
midnight, or `none` for an invalid time string.  Seconds are discarded;
`12am` is 0:00 and `12pm` is 12:00. -/
def parseTimeC (s : String) : Option Nat :=
  if s = "" then none
  else
    match parseTimeCore (trimChars (s.data.map Char.toLower)) with
    | none => none
    | some (h0, m, p) =>
      let h := if p = some true ∧ 1 ≤ h0 ∧ h0 ≤ 11 then h0 + 12
               else if p = some false ∧ h0 = 12 then 0
               else h0
      if h ≤ 23 ∧ m ≤ 59 then some (h * 60 + m) else none

/-- Two-digit zero padding. -/
def pad2 (n : Nat) : String :=
  if n < 10 then "0" ++ toString n else toString n

/-- Client-side `formatTime` (js/utils.js lines 136-144) on a valid time. -/
def formatTimeC (t : Nat) : String :=
  pad2 (t / 60) ++ ":" ++ pad2 (t % 60)

/-- Time points of a range: start, start plus 30, ... while at most the end
(the while-loop of js/utils.js lines 189-197). -/
def rangePoints (s e : Nat) : List Nat :=
  (List.range ((e - s) / 30 + 1)).map (fun k => s + 30 * k)

/-- Add a time string to a day set if not already present (JS `Set.add`). -/
def addUnique (ts : List String) (t : String) : List String :=
  if ts.contains t then ts else ts ++ [t]

/-- Range branch of the availability parser (js/utils.js lines 183-198): both
endpoints must parse and the start must be strictly before the end, else the
token contributes nothing. -/
def processRangeToken (ts : List String) (startStr endStr : String) : List String :=
  match parseTimeC startStr, parseTimeC endStr with
  | some s, some e =>
    if s < e then (rangePoints s e).foldl (fun acc t => addUnique acc (formatTimeC t)) ts
    else ts
  | _, _ => ts

/-- Processing of one time token of an entry (js/utils.js lines 181-219):
either a range `start-end` or a single time; invalid tokens are skipped. -/
def processTimeToken (ts : List String) (tok : String) : List String :=
  if tok.data.contains '-' then
    match splitCh '-' tok with
    | s :: e :: _ => processRangeToken ts s e
    | _ => ts
  else
    match parseTimeC tok with
    | some t => addUnique ts (formatTimeC t)
    | none => ts

/-- Splitter for the regex `split(/\n|;(?=\s*[A-Za-z])/)`: break at every
newline, and at a semicolon only when it is followed by optional whitespace
and a letter. -/
def splitAvailEntries : List Char → List Char → List (List Char)
  | [], acc => [acc.reverse]
  | '\n' :: rest, acc => acc.reverse :: splitAvailEntries rest []
  | ';' :: rest, acc =>
    if (match rest.dropWhile isJsWs with
        | c :: _ => c.isAlpha
        | [] => false) then
      acc.reverse :: splitAvailEntries rest []
    else splitAvailEntries rest (';' :: acc)
  | c :: rest, acc => splitAvailEntries rest (c :: acc)

/-- The split `entry.split(/:(.+)/)` (js/utils.js line 166): the part before
the first colon and the non-empty remainder after it. -/
def splitFirstColon : List Char → Option (List Char × List Char)
  | [] => none
  | ':' :: rest => if rest.isEmpty then none else some ([], rest)
  | c :: rest => (splitFirstColon rest).map (fun p => (c :: p.1, p.2))

/-- Lower-case day names accepted by the client parser. -/
def validDaysC : List String :=
  ["monday", "tuesday", "wednesday", "thursday", "friday", "saturday", "sunday"]

/-- Create the day entry if absent (JS `if (!availability[day]) ... = new Set()`). -/
def ensureDay (avail : List (String × List String)) (day : String) :
    List (String × List String) :=
  match avail.find? (fun p => p.1 = day) with
  | some _ => avail
  | none => avail ++ [(day, [])]

/-- Update the times of one day in the availability map. -/
def updateDay (avail : List (String × List String)) (day : String)
    (f : List String → List String) : List (String × List String) :=
  avail.map (fun p => if p.1 = day then (p.1, f p.2) else p)

/-- Processing of one entry of the availability string
(js/utils.js lines 164-220). -/
def processEntry (avail : List (String × List String)) (entry : String) :
    List (String × List String) :=
  match splitFirstColon entry.data with
  | none => avail
  | some (dayCs, restCs) =>
    let day := sLower (sTrim (String.mk dayCs))
    if ¬ validDaysC.contains day then avail
    else
      let timePart := sTrim (String.mk restCs)
      if timePart = "" then avail
      else
        let avail2 := ensureDay avail day
        let toks := ((splitCh ';' timePart).map sTrim).filter (fun t => t ≠ "")
        toks.foldl (fun a tok => updateDay a day (fun ts => processTimeToken ts tok)) avail2

/-- Client-side `parseAvailability` (js/utils.js lines 155-222): lower-cased
day names mapped to their sets of HH:MM time points. -/
def parseAvailabilityC (availabilityString : Option String) :
    List (String × List String) :=
  if ¬ jsTruthy availabilityString then []
  else
    let entries := ((splitAvailEntries (availabilityString.getD "").data []).map
      (fun cs => sTrim (String.mk cs))).filter (fun e => e ≠ "")
    entries.foldl processEntry []

/-- Client-side `isStudentAvailable` (js/utils.js lines 233-269), with the
memo cache modelled as empty (the cache-miss path, which always parses).
`availability_string` falls back to `availability` via JS `||`. -/
def isStudentAvailableC (availability_string availability : Option String)
    (targetDay targetTime : String) : Bool :=
  if targetDay = "" ∨ targetTime = "" then false
  else
    let parsed := parseAvailabilityC (jsOrStr availability_string availability)
    match parseTimeC targetTime with
    | none => false
    | some t =>
      match parsed.find? (fun p => p.1 = sLower targetDay) with
      | some p => p.2.contains (formatTimeC t)
      | none => false

/-! ### Client-side roster lookup (js/utils.js `getStudentDetails`, lines 11-76)

The client roster records are duck-typed, and the lookup normalises missing
fields by writing defaults into the found record in place.  A record field is
therefore modelled as `Option (Option String)`: the outer level is
presence (`none` is `undefined`), the inner is JS `null` versus a string.
The function is embedded in state-passing style, returning the result
together with the roster after the call. -/

/-- Client roster record (duck-typed shape). -/
structure StudentRec where
  id : Int
  Name : Option (Option String) := none
  name : Option (Option String) := none
  groupOf : Option Int := none
  sub_group : Option (Option String) := none
  class_name : Option (Option String) := none
  availability_string : Option (Option String) := none
  availability : Option (Option String) := none
deriving DecidableEq

/-- Evaluation of `foundStudent.availability || null` (js/utils.js line 63). -/
def flatTruthy (o : Option (Option String)) : Option String :=
  match o with
  | some (some v) => if v = "" then none else some v
  | _ => none

/-- The in-place normalisation `getStudentDetails` performs on the found
record (js/utils.js lines 38-67): default `Name` from `name` or null,
`groupOf` to 1, `sub_group`, `class_name` and `availability_string` to null
(the last falling back to `availability`). -/
def normalizeRec (s : StudentRec) : StudentRec :=
  { s with
    Name := match s.Name with
            | some v => some v
            | none => match s.name with
                      | some v => some v
                      | none => some none
    groupOf := match s.groupOf with
               | some v => some v
               | none => some 1
    sub_group := match s.sub_group with
                 | some v => some v
                 | none => some none
    class_name := match s.class_name with
                  | some v => some v
                  | none => some none
    availability_string := match s.availability_string with
                           | some v => some v
                           | none => some (flatTruthy s.availability) }

/-- Normalisation applied to the first record with the given id, the rest of
the array untouched (the JS mutation is visible through the array). -/
def replaceFirstNorm (studentId : Int) : List StudentRec → List StudentRec
  | [] => []
  | s :: rest =>
    if s.id = studentId then normalizeRec s :: rest
    else s :: replaceFirstNorm studentId rest

/-- Result of the client lookup: either the shared (mutated) roster record, or
the fresh default object for an unknown or nameless student. -/
inductive LookupResult where
  | unknown (id : Int)
  | found (s : StudentRec)
deriving DecidableEq

/-- Client-side `getStudentDetails` (js/utils.js lines 11-76) in state-passing
form: the returned list is the roster array as observable after the call.
The id is modelled as an `Int` (the `parseInt` branch for non-numeric ids
returns the default object without touching the roster). -/
def getStudentDetailsC (studentId : Int) (roster : List StudentRec) :
    LookupResult × List StudentRec :=
  if roster.isEmpty then (.unknown studentId, roster)
  else
    match roster.find? (fun s => s.id = studentId) with
    | none => (.unknown studentId, roster)
    | some s =>
      let s2 := normalizeRec s
      let roster2 := replaceFirstNorm studentId roster
      if s2.Name = some none then (.unknown studentId, roster2)
      else (.found s2, roster2)

/-- A record on which the lookup's normalisation would be the identity: all
five defaulted fields are already present. -/
def isNormalizedRec (s : StudentRec) : Bool :=
  s.Name.isSome && s.groupOf.isSome && s.sub_group.isSome &&
  s.class_name.isSome && s.availability_string.isSome

/-! ## Helper lemmas -/

lemma mem_dedupFirstAux_of {α : Type} [DecidableEq α] (a : α) :
    ∀ (l seen : List α), a ∈ l → ¬ a ∈ seen → a ∈ dedupFirstAux seen l := by
  intro l
  induction l with
  | nil => intro seen h _; cases h
  | cons b l ih =>
    intro seen hmem hsn
    by_cases hb : seen.contains b = true
    · simp only [dedupFirstAux, if_pos hb]
      rcases List.mem_cons.mp hmem with rfl | h1
      · exact absurd (List.mem_of_elem_eq_true hb) hsn
      · exact ih seen h1 hsn
    · simp only [dedupFirstAux, if_neg hb]
      rcases List.mem_cons.mp hmem with rfl | h1
      · exact List.mem_cons_self _ _
      · by_cases hab : a = b
        · subst hab; exact List.mem_cons_self _ _
        · refine List.mem_cons_of_mem _ (ih (b :: seen) h1 ?_)
          intro hc
          rcases List.mem_cons.mp hc with h | h
          · exact hab h
          · exact hsn h

lemma mem_dedupFirst {α : Type} [DecidableEq α] {a : α} {l : List α} (h : a ∈ l) :
    a ∈ dedupFirst l :=
  mem_dedupFirstAux_of a l [] h (by simp)

lemma checkS_true_of_solo (cand : Option PairStudent) (occ : List PairStudent)
    (cap : Option Int) (hq : ∃ q ∈ occ, q.groupOf.getD 1 = 1) :
    (checkPairingRuleViolationS cand (some occ) cap).1 = true := by
  obtain ⟨q, hqm, hq1⟩ := hq
  have hlen : 1 ≤ occ.length := List.length_pos.mpr (by rintro rfl; simp at hqm)
  rcases cand with _ | c
  · rfl
  rcases hg : c.groupOf with _ | g
  · simp [checkPairingRuleViolationS, hg]
  rcases cap with _ | n
  · simp [checkPairingRuleViolationS, hg]
  simp only [checkPairingRuleViolationS, hg]
  split_ifs with h1 h2 h3 h4
  · rfl
  · rfl
  · rfl
  · rfl
  · exfalso
    apply h3
    refine ⟨List.countP_pos_iff.mpr ⟨q, List.mem_append_left _ hqm, by simp [hq1]⟩, ?_⟩
    have : ((occ ++ [c]).length : Int) = (occ.length : Int) + 1 := by
      simp [List.length_append]
    omega

lemma checkS_true_of_paired_full (cand : Option PairStudent) (occ : List PairStudent)
    (cap : Option Int) (hq : ∃ q ∈ occ, q.groupOf.getD 1 = 2) (hlen : 2 ≤ occ.length) :
    (checkPairingRuleViolationS cand (some occ) cap).1 = true := by
  obtain ⟨q, hqm, hq2⟩ := hq
  rcases cand with _ | c
  · rfl
  rcases hg : c.groupOf with _ | g
  · simp [checkPairingRuleViolationS, hg]
  rcases cap with _ | n
  · simp [checkPairingRuleViolationS, hg]
  simp only [checkPairingRuleViolationS, hg]
  split_ifs with h1 h2 h3 h4
  · rfl
  · rfl
  · rfl
  · rfl
  · exfalso
    have hcount : ((occ ++ [c]).length : Int) = (occ.length : Int) + 1 := by
      simp [List.length_append]
    rcases Nat.eq_zero_or_pos (countSolo (occ ++ [c])) with hz | hpos
    · exact h4 ⟨hz, List.countP_pos_iff.mpr ⟨q, List.mem_append_left _ hqm, by simp [hq2]⟩,
        by omega⟩
    · exact h3 ⟨hpos, by omega⟩

/-- C2 (counterexample): a candidate with groupOf 3 joining a slot whose only
occupant is a paired student (capacity 3) is admitted by the server-side
checker, while the client-side checker reports a violation.  The server
version has no group-mixing rule. -/
theorem checkPairingS_admits_group_into_paired :
    (checkPairingRuleViolationS (some { groupOf := some 3 })
      (some [{ groupOf := some 2 }]) (some 3)).1 = false ∧
    (checkPairingRuleViolationC (some { groupOf := some 3 })
      (some [{ groupOf := some 2 }]) (some 3)).1 = true := by
  exact ⟨rfl, rfl⟩

/-- C2 (amended): the client-side checker always reports a violation for a
groupOf at least 3 candidate when any occupant is solo or paired; the
server-side checker reports one whenever an occupant is solo, or a paired
occupant is present and the occupant list already has at least two members. -/
theorem pairing_group_mixing_amended :
    (∀ (c : PairStudent) (occ : List PairStudent) (cap : Option Int) (g : Int),
      c.groupOf = some g → 3 ≤ g →
      ((∃ q ∈ occ, q.groupOf = some 1) ∨ (∃ q ∈ occ, q.groupOf = some 2)) →
      (checkPairingRuleViolationC (some c) (some occ) cap).1 = true) ∧
    (∀ (cand : Option PairStudent) (occ : List PairStudent) (cap : Option Int),
      (∃ q ∈ occ, q.groupOf = some 1) →
      (checkPairingRuleViolationS cand (some occ) cap).1 = true) ∧
    (∀ (cand : Option PairStudent) (occ : List PairStudent) (cap : Option Int),
      (∃ q ∈ occ, q.groupOf = some 2) → 2 ≤ occ.length →
      (checkPairingRuleViolationS cand (some occ) cap).1 = true) := by
  refine ⟨?_, ?_, ?_⟩
  · intro c occ cap g hg hg3 hocc
    have hn1 : ¬ g = 1 := by omega
    have hn2 : ¬ g = 2 := by omega
    have hcont : (groupTypes occ).contains 1 = true ∨ (groupTypes occ).contains 2 = true := by
      rcases hocc with ⟨q, hqm, hq⟩ | ⟨q, hqm, hq⟩
      · exact Or.inl (List.elem_eq_true_of_mem
          (mem_dedupFirst (List.mem_filterMap.mpr ⟨q, hqm, hq⟩)))
      · exact Or.inr (List.elem_eq_true_of_mem
          (mem_dedupFirst (List.mem_filterMap.mpr ⟨q, hqm, hq⟩)))
    rcases cap with _ | n
    · simp [checkPairingRuleViolationC, hg]
    simp only [checkPairingRuleViolationC, hg, if_neg hn1, if_neg hn2]
    rcases hcont with hc | hc
    · simp only [hc, if_true]
      split_ifs <;> rfl
    · by_cases hc1 : (groupTypes occ).contains 1 = true
      · simp only [hc1, if_true]
        split_ifs <;> rfl
      · simp only [hc1, hc, if_false, if_true]
        split_ifs <;> rfl
  · intro cand occ cap hq
    exact checkS_true_of_solo cand occ cap
      (by obtain ⟨q, hqm, h1⟩ := hq; exact ⟨q, hqm, by simp [h1]⟩)
  · intro cand occ cap hq hlen
    exact checkS_true_of_paired_full cand occ cap
      (by obtain ⟨q, hqm, h2⟩ := hq; exact ⟨q, hqm, by simp [h2]⟩) hlen

/-- C2 (witness): the amended statement applied to a groupOf 3 candidate and a
slot with one solo occupant and one paired occupant. -/
theorem pairing_group_mixing_amended_witness :
    (checkPairingRuleViolationC (some { groupOf := some 3 })
      (some [{ groupOf := some 1 }]) (some 3)).1 = true ∧
    (checkPairingRuleViolationS (some { groupOf := some 3 })
      (some [{ groupOf := some 2 }, { groupOf := some 2 }]) (some 3)).1 = true := by
  constructor
  · exact pairing_group_mixing_amended.1 { groupOf := some 3 } [{ groupOf := some 1 }]
      (some 3) 3 rfl (by omega) (Or.inl ⟨{ groupOf := some 1 }, by simp, rfl⟩)
  · exact pairing_group_mixing_amended.2.2 (some { groupOf := some 3 })
      [{ groupOf := some 2 }, { groupOf := some 2 }] (some 3)
      ⟨{ groupOf := some 2 }, by simp, rfl⟩ (by simp)

/-- C9: every invalid input to the Pairing Checker, in both versions — a null
candidate or one with a missing/non-numeric groupOf, a non-array occupant
list, or a capacity that is not a number at least 1 — yields a result with
violation true and a non-empty reason string.  Both embeddings are total
functions, so no input can raise. -/
theorem pairing_checker_fail_closed :
    (∀ occ cap, ∃ r, checkPairingRuleViolationS none occ cap = (true, r) ∧ r ≠ "") ∧
    (∀ c occ cap, c.groupOf = none →
      ∃ r, checkPairingRuleViolationS (some c) occ cap = (true, r) ∧ r ≠ "") ∧
    (∀ cand cap, ∃ r, checkPairingRuleViolationS cand none cap = (true, r) ∧ r ≠ "") ∧
    (∀ cand occ, ∃ r, checkPairingRuleViolationS cand occ none = (true, r) ∧ r ≠ "") ∧
    (∀ cand occ n, n < 1 →
      ∃ r, checkPairingRuleViolationS cand occ (some n) = (true, r) ∧ r ≠ "") ∧
    (∀ occ cap, ∃ r, checkPairingRuleViolationC none occ cap = (true, some r) ∧ r ≠ "") ∧
    (∀ c occ cap, c.groupOf = none →
      ∃ r, checkPairingRuleViolationC (some c) occ cap = (true, some r) ∧ r ≠ "") ∧
    (∀ cand cap, ∃ r, checkPairingRuleViolationC cand none cap = (true, some r) ∧ r ≠ "") ∧
    (∀ cand occ, ∃ r, checkPairingRuleViolationC cand occ none = (true, some r) ∧ r ≠ "") ∧
    (∀ cand occ n, n < 1 →
      ∃ r, checkPairingRuleViolationC cand occ (some n) = (true, some r) ∧ r ≠ "") := by
  refine ⟨?_, ?_, ?_, ?_, ?_, ?_, ?_, ?_, ?_, ?_⟩
  · intro occ cap; exact ⟨_, rfl, by decide⟩
  · intro c occ cap hg
    simp only [checkPairingRuleViolationS, hg]
    exact ⟨_, rfl, by decide⟩
  · intro cand cap
    rcases cand with _ | c
    · exact ⟨_, rfl, by decide⟩
    rcases hg : c.groupOf with _ | g
    · simp only [checkPairingRuleViolationS, hg]; exact ⟨_, rfl, by decide⟩
    · simp only [checkPairingRuleViolationS, hg]; exact ⟨_, rfl, by decide⟩
  · intro cand occ
    rcases cand with _ | c
    · exact ⟨_, rfl, by decide⟩
    rcases hg : c.groupOf with _ | g
    · simp only [checkPairingRuleViolationS, hg]; exact ⟨_, rfl, by decide⟩
    rcases occ with _ | l
    · simp only [checkPairingRuleViolationS, hg]; exact ⟨_, rfl, by decide⟩
    · simp only [checkPairingRuleViolationS, hg]; exact ⟨_, rfl, by decide⟩
  · intro cand occ n hn
    rcases cand with _ | c
    · exact ⟨_, rfl, by decide⟩
    rcases hg : c.groupOf with _ | g
    · simp only [checkPairingRuleViolationS, hg]; exact ⟨_, rfl, by decide⟩
    rcases occ with _ | l
    · simp only [checkPairingRuleViolationS, hg]; exact ⟨_, rfl, by decide⟩
    · simp only [checkPairingRuleViolationS, hg, if_pos hn]; exact ⟨_, rfl, by decide⟩
  · intro occ cap; exact ⟨_, rfl, by decide⟩
  · intro c occ cap hg
    simp only [checkPairingRuleViolationC, hg]
    exact ⟨_, rfl, by decide⟩
  · intro cand cap
    rcases cand with _ | c
    · exact ⟨_, rfl, by decide⟩
    rcases hg : c.groupOf with _ | g
    · simp only [checkPairingRuleViolationC, hg]; exact ⟨_, rfl, by decide⟩
    · simp only [checkPairingRuleViolationC, hg]; exact ⟨_, rfl, by decide⟩
  · intro cand occ
    rcases cand with _ | c
    · exact ⟨_, rfl, by decide⟩
    rcases hg : c.groupOf with _ | g
    · simp only [checkPairingRuleViolationC, hg]; exact ⟨_, rfl, by decide⟩
    rcases occ with _ | l
    · simp only [checkPairingRuleViolationC, hg]; exact ⟨_, rfl, by decide⟩
    · simp only [checkPairingRuleViolationC, hg]; exact ⟨_, rfl, by decide⟩
  · intro cand occ n hn
    rcases cand with _ | c
    · exact ⟨_, rfl, by decide⟩
    rcases hg : c.groupOf with _ | g
    · simp only [checkPairingRuleViolationC, hg]; exact ⟨_, rfl, by decide⟩
    rcases occ with _ | l
    · simp only [checkPairingRuleViolationC, hg]; exact ⟨_, rfl, by decide⟩
    · simp only [checkPairingRuleViolationC, hg, if_pos hn]; exact ⟨_, rfl, by decide⟩

/-- C9 (witness): the fail-closed statement applied to a candidate with a
missing groupOf and to a zero capacity. -/
theorem pairing_checker_fail_closed_witness :
    (∃ r, checkPairingRuleViolationS (some { groupOf := none }) (some []) (some 2) =
      (true, r) ∧ r ≠ "") ∧
    (∃ r, checkPairingRuleViolationC (some { groupOf := some 1 }) (some []) (some 0) =
      (true, some r) ∧ r ≠ "") := by
  constructor
  · exact pairing_checker_fail_closed.2.1 { groupOf := none } (some []) (some 2) rfl
  · exact pairing_checker_fail_closed.2.2.2.2.2.2.2.2.2
      (some { groupOf := some 1 }) (some []) 0 (by omega)

/-! ## Block model: year-level prefix matching (C5) -/

/-- Student in class Year 7A. -/
def cexStudentY7 : StudentDetails :=
  { id := 1, name := "S7", groupOf := 3, subGroup := none, lessons_owed := 0,
    class_name := some "Year 7A" }

/-- Student in class Year 8A. -/
def cexStudentY8 : StudentDetails :=
  { id := 2, name := "S8", groupOf := 3, subGroup := none, lessons_owed := 0,
    class_name := some "Year 8A" }

/-- Year-level block whose identifier is the empty string: non-null, and a
prefix of every class name. -/
def cexBlockEmptyIdent : DailyBlock :=
  { block_date := "2025-03-03", block_type := "Year Level Absence", identifier := some "" }

/-- Year-level block for Year 7. -/
def blockYear7 : DailyBlock :=
  { block_date := "2025-03-03", block_type := "Year Level Absence",
    identifier := some "Year 7" }

/-- C5 (counterexample): a YearLevelAbsence block with the empty string as
identifier has a non-null identifier, its date matches, and the student's
className starts with it, so the claimed iff demands blocked; the code tests
JS truthiness of the identifier and reports not blocked. -/
theorem yearLevel_empty_identifier_not_blocked :
    cexBlockEmptyIdent.identifier ≠ none ∧
    cexBlockEmptyIdent.block_date = "2025-03-03" ∧
    yearLevelBlockedSpec cexStudentY7.class_name cexBlockEmptyIdent = true ∧
    isStudentBlocked cexStudentY7 (some "2025-03-03") 1 [cexBlockEmptyIdent] = false := by
  refine ⟨by decide, rfl, by decide, by decide⟩

/-- C5 (amended): for a YearLevelAbsence block and a non-empty target date,
the Block Model reports blocked iff the block date equals the target date,
the identifier is non-null and non-empty, and the student's className is
non-null, non-empty and starts with the identifier.  The Year 7 / Year 7A /
Year 8A scenario holds. -/
theorem isStudentBlocked_yearLevel_iff :
    (∀ (st : StudentDetails) (d : String) (cid : Int) (b : DailyBlock),
      b.block_type = "Year Level Absence" → d ≠ "" →
      (isStudentBlocked st (some d) cid [b] = true ↔
        b.block_date = d ∧ ∃ i c, b.identifier = some i ∧ i ≠ "" ∧
          st.class_name = some c ∧ c ≠ "" ∧ sStarts c i = true)) ∧
    isStudentBlocked cexStudentY7 (some "2025-03-03") 1 [blockYear7] = true ∧
    isStudentBlocked cexStudentY8 (some "2025-03-03") 1 [blockYear7] = false := by
  refine ⟨?_, by decide, by decide⟩
  intro st d cid b hb hd
  rcases hbi : b.identifier with _ | i
  · simp [isStudentBlocked, blockApplies, jsTruthy, hd, hb, hbi]
  rcases hcn : st.class_name with _ | c
  · simp [isStudentBlocked, blockApplies, jsTruthy, hd, hb, hbi, hcn]
  by_cases hi : i = ""
  · simp [isStudentBlocked, blockApplies, jsTruthy, hd, hb, hbi, hcn, hi]
  by_cases hc : c = ""
  · simp [isStudentBlocked, blockApplies, jsTruthy, hd, hb, hbi, hcn, hi, hc]
  simp [isStudentBlocked, blockApplies, jsTruthy, hd, hb, hbi, hcn, hi, hc,
    and_assoc]

/-- C5 (witness): the amended iff applied at the Year 7 block and the Year 7A
student. -/
theorem isStudentBlocked_yearLevel_iff_witness :
    isStudentBlocked cexStudentY7 (some "2025-03-03") 4 [blockYear7] = true ↔
      blockYear7.block_date = "2025-03-03" ∧ ∃ i c, blockYear7.identifier = some i ∧
        i ≠ "" ∧ cexStudentY7.class_name = some c ∧ c ≠ "" ∧ sStarts c i = true :=
  isStudentBlocked_yearLevel_iff.1 cexStudentY7 "2025-03-03" 4 blockYear7 rfl (by decide)

/-! ## Candidate filter: sub-group gate (C3) -/

/-- Roster: an original student with sub-group x and an otherwise eligible
candidate with no sub-group. -/
def cexRoster3 : List StudentRow :=
  [{ id := 1, Name := some "Org", groupOf := some 3, sub_group := some "x",
     lessons_owed := some 0 },
   { id := 2, Name := some "Cand", groupOf := some 3, sub_group := none,
     lessons_owed := some 5, availability_string := some "Monday: 09:00" }]

/-- Slot owned by the sub-grouped original student. -/
def cexSlot3 : SlotInfo :=
  { schedule_id := 12, day_of_week := "Monday", start_time := "09:00:00",
    capacity := 3, coach_id := 1, original_student_ids := [1],
    current_occupants := 1, slot_date := some "2025-05-05" }

/-- Details of the null-sub-group candidate. -/
def cexCand3 : StudentDetails :=
  { id := 2, name := "Cand", groupOf := 3, subGroup := none, lessons_owed := 5,
    availability_string := some "Monday: 09:00", class_name := none }

/-- C3 (counterexample): the slot establishes sub-group x; the claim says a
candidate with a null sub-group passes the gate, and the spec-side gate does
pass it, but the code's gate excludes it: the candidate passes every other
filter step yet the candidate pool is empty. -/
theorem subgroup_gate_excludes_null_candidate :
    subGroupGateSpec (some "x") none = true ∧
    subGroupGate (some "x") none = false ∧
    getStudentDetailsS 2 cexRoster3 = some cexCand3 ∧
    targetSubGroupOf (existingDetails cexSlot3 cexRoster3) = some "x" ∧
    passesSlotFilter cexSlot3 none [] cexCand3 = true ∧
    candidatesForSlot cexSlot3 cexRoster3 []
      (targetSubGroupOf (existingDetails cexSlot3 cexRoster3)) = [] := by
  refine ⟨rfl, rfl, by decide, by decide, by decide, by decide⟩

/-- C3 (amended): once a sub-group is established, the gate admits exactly the
candidates whose sub-group equals it — candidates with a null sub-group are
excluded too; with no established sub-group everyone passes; consequently
every member of the filtered pool carries the established sub-group. -/
theorem subgroup_gate_amended :
    (∀ t sg, subGroupGate (some t) sg = true ↔ sg = some t) ∧
    (∀ sg, subGroupGate none sg = true) ∧
    (∀ (slot : SlotInfo) (allStudentsData : List StudentRow)
       (blocks : List DailyBlock) (t : String) (cd : StudentDetails),
      cd ∈ candidatesForSlot slot allStudentsData blocks (some t) →
      cd.subGroup = some t) := by
  refine ⟨?_, ?_, ?_⟩
  · intro t sg; simp [subGroupGate]
  · intro sg; rfl
  · intro slot allStudentsData blocks t cd hmem
    have hpass := (List.mem_filter.mp hmem).2
    simp only [passesSlotFilter, subGroupGate, Bool.and_eq_true] at hpass
    have := hpass.1.2
    simpa using this

/-- Roster for the witness: the candidate shares sub-group x with the
original student. -/
def wRoster3 : List StudentRow :=
  [{ id := 1, Name := some "Org", groupOf := some 3, sub_group := some "x",
     lessons_owed := some 0 },
   { id := 2, Name := some "Cand", groupOf := some 3, sub_group := some "x",
     lessons_owed := some 5, availability_string := some "Monday: 09:00" }]

/-- Details of the matching-sub-group candidate. -/
def wCand3 : StudentDetails :=
  { id := 2, name := "Cand", groupOf := 3, subGroup := some "x", lessons_owed := 5,
    availability_string := some "Monday: 09:00", class_name := none }

/-- C3 (witness): the amended statement applied to a concrete pool in which
the candidate carries the established sub-group. -/
theorem subgroup_gate_amended_witness :
    wCand3.subGroup = some "x" :=
  subgroup_gate_amended.2.2 cexSlot3 wRoster3 [] "x" wCand3 (by decide)

/-! ## Missing slot date and block checking (C8) -/

/-- Roster with one eligible candidate. -/
def cexRoster8 : List StudentRow :=
  [{ id := 2, Name := some "Bob", groupOf := some 3, lessons_owed := some 5,
     availability_string := some "Monday: 09:00" }]

/-- Slot whose date is absent (the upstream slot-fetch path that omits it). -/
def cexSlot8 : SlotInfo :=
  { schedule_id := 11, day_of_week := "Monday", start_time := "09:00:00",
    capacity := 1, coach_id := 1, original_student_ids := [],
    current_occupants := 0, slot_date := none }

/-- A public holiday covering the date the slot actually falls on. -/
def cexBlocks8 : List DailyBlock :=
  [{ block_date := "2025-05-05", block_type := "Public Holiday" }]

/-- Details of the candidate of `cexRoster8`. -/
def cexBob : StudentDetails :=
  { id := 2, name := "Bob", groupOf := 3, subGroup := none, lessons_owed := 5,
    availability_string := some "Monday: 09:00", class_name := none }

/-- C8: with the slot date absent the implementation does not raise or
reject — `isStudentBlocked` silently reports not blocked, and the recommender
still emits a recommendation that a Public Holiday block should have
prevented; the same slot with its date present yields no recommendation. -/
theorem missing_slot_date_skips_block_checks :
    isStudentBlocked cexBob none 1 cexBlocks8 = false ∧
    (processSlot cexSlot8 cexRoster8 cexBlocks8).map
      (fun r => r.recommended_group.map (fun m => m.student_id)) = some [2] ∧
    (processSlot { cexSlot8 with slot_date := some "2025-05-05" } cexRoster8 cexBlocks8).map
      (fun r => r.recommended_group.map (fun m => m.student_id)) = some [] := by
  refine ⟨rfl, by decide, by decide⟩

/-! ## Ranking determinism and stable tie-break (C4) -/

/-- C4: with owed lessons 5, 5, 3, 1 in input order, the sort keeps the two
equally-owed candidates in input order (stable, input-order tie-break), and
the greedy recommender with a needed count of 2 returns the first two — never
the swapped pair, since the output is a function of the input. -/
theorem recommender_stable_tiebreak :
    ∀ (a b c d : StudentDetails),
      a.lessons_owed = 5 → b.lessons_owed = 5 → c.lessons_owed = 3 →
      d.lessons_owed = 1 →
      sortCandidates [a, b, c, d] = [a, b, c, d] ∧
      (a.groupOf = 3 → b.groupOf = 3 → a.subGroup = none → b.subGroup = none →
        greedyFill 2 2 (sortCandidates [a, b, c, d]) [] [] none =
          [toMember a, toMember b]) := by
  intro a b c d ha hb hc hd
  have hsort : sortCandidates [a, b, c, d] = [a, b, c, d] := by
    simp [sortCandidates, insertDesc, ha, hb, hc, hd]
  refine ⟨hsort, ?_⟩
  intro hga hgb hsa hsb
  rw [hsort]
  simp [greedyFill, checkPairingRuleViolationS, toPair, countSolo, countPaired,
    ha, hb, hga, hgb, hsa, hsb]

/-- Concrete tie-break candidate A. -/
def tieA : StudentDetails :=
  { id := 1, name := "A", groupOf := 3, subGroup := none, lessons_owed := 5 }

/-- Concrete tie-break candidate B. -/
def tieB : StudentDetails :=
  { id := 2, name := "B", groupOf := 3, subGroup := none, lessons_owed := 5 }

/-- Concrete tie-break candidate C. -/
def tieC : StudentDetails :=
  { id := 3, name := "C", groupOf := 3, subGroup := none, lessons_owed := 3 }

/-- Concrete tie-break candidate D. -/
def tieD : StudentDetails :=
  { id := 4, name := "D", groupOf := 3, subGroup := none, lessons_owed := 1 }

/-- C4 (witness): the tie-break statement applied to four concrete candidates. -/
theorem recommender_stable_tiebreak_witness :
    sortCandidates [tieA, tieB, tieC, tieD] = [tieA, tieB, tieC, tieD] ∧
    greedyFill 2 2 (sortCandidates [tieA, tieB, tieC, tieD]) [] [] none =
      [toMember tieA, toMember tieB] := by
  have h := recommender_stable_tiebreak tieA tieB tieC tieD rfl rfl rfl rfl
  exact ⟨h.1, h.2 rfl rfl rfl rfl⟩

/-! ## Availability range expansion (C6) -/

/-- C6: the availability string Monday 09:00-10:00 yields available at 09:00,
09:30 and 10:00 and not at 08:30 or 10:30; in general a range with start
strictly before end expands to exactly the 30-minute increments from the
start through the end inclusive, and a malformed or inverted range
contributes nothing. -/
theorem availability_range_expansion :
    isStudentAvailableC (some "Monday: 09:00-10:00") none "Monday" "09:00" = true ∧
    isStudentAvailableC (some "Monday: 09:00-10:00") none "Monday" "09:30" = true ∧
    isStudentAvailableC (some "Monday: 09:00-10:00") none "Monday" "10:00" = true ∧
    isStudentAvailableC (some "Monday: 09:00-10:00") none "Monday" "08:30" = false ∧
    isStudentAvailableC (some "Monday: 09:00-10:00") none "Monday" "10:30" = false ∧
    (∀ s e : Nat, s < e →
      ∀ t : Nat, t ∈ rangePoints s e ↔ ∃ k, t = s + 30 * k ∧ t ≤ e) ∧
    (∀ (ts : List String) (startStr endStr : String),
      (parseTimeC startStr = none ∨ parseTimeC endStr = none ∨
        (∃ s e, parseTimeC startStr = some s ∧ parseTimeC endStr = some e ∧ e ≤ s)) →
      processRangeToken ts startStr endStr = ts) := by
  refine ⟨by decide, by decide, by decide, by decide, by decide, ?_, ?_⟩
  · intro s e hse t
    simp only [rangePoints, List.mem_map, List.mem_range]
    constructor
    · rintro ⟨k, hk, rfl⟩
      exact ⟨k, rfl, by omega⟩
    · rintro ⟨k, rfl, hle⟩
      exact ⟨k, by omega, rfl⟩
  · intro ts s0 e0 h
    rcases hs : parseTimeC s0 with _ | sv
    · simp [processRangeToken, hs]
    rcases he : parseTimeC e0 with _ | ev
    · simp [processRangeToken, hs, he]
    have hle : ev ≤ sv := by
      rcases h with h | h | ⟨s, e, hs2, he2, h2⟩
      · rw [hs] at h; cases h
      · rw [he] at h; cases h
      · rw [hs] at hs2; rw [he] at he2
        cases hs2; cases he2; exact h2
    simp [processRangeToken, hs, he, if_neg (by omega : ¬ sv < ev)]

/-- C6 (witness): the range characterisation applied at the 09:00-10:00 range
and the point 09:30, and an inverted range contributing nothing. -/
theorem availability_range_expansion_witness :
    (570 ∈ rangePoints 540 600 ↔ ∃ k, 570 = 540 + 30 * k ∧ 570 ≤ 600) ∧
    processRangeToken [] "10:00" "09:00" = [] := by
  constructor
  · exact availability_range_expansion.2.2.2.2.2.1 540 600 (by omega) 570
  · exact availability_range_expansion.2.2.2.2.2.2 [] "10:00" "09:00"
      (Or.inr (Or.inr ⟨600, 540, rfl, rfl, by omega⟩))

/-! ## Availability fail-closed behaviour (C7) -/

/-- C7: the Availability Model is a total function (so it never raises) and
fails closed: a null or missing availability string, a string that parses to
nothing, and the server dialect on null or empty input all answer not
available, and an invalid time token contributes nothing to the parse. -/
theorem availability_fail_closed :
    (∀ day time, isStudentAvailableC none none day time = false) ∧
    (∀ (s : Option String) day time, parseAvailabilityC s = [] →
      isStudentAvailableC s none day time = false) ∧
    (∀ day time, isStudentAvailableS none day time = false) ∧
    (∀ day time, isStudentAvailableS (some "") day time = false) ∧
    (∀ (ts : List String) (tok : String), parseTimeC tok = none →
      tok.data.contains '-' = false → processTimeToken ts tok = ts) ∧
    isStudentAvailableC (some "not a schedule") none "Monday" "09:00" = false := by
  refine ⟨?_, ?_, ?_, ?_, ?_, by decide⟩
  · intro day time
    unfold isStudentAvailableC
    split_ifs with h
    · rfl
    · rcases ht : parseTimeC time with _ | t <;>
        simp [ht, jsOrStr, jsTruthy, parseAvailabilityC]
  · intro s day time hparse
    have hp : parseAvailabilityC (jsOrStr s none) = [] := by
      by_cases hts : jsTruthy s = true
      · simpa [jsOrStr, hts] using hparse
      · have hn : jsOrStr s none = none := by simp [jsOrStr, hts]
        rw [hn]; rfl
    unfold isStudentAvailableC
    split_ifs with h
    · rfl
    · rcases ht : parseTimeC time with _ | t <;> simp [ht, hp]
  · intro day time
    simp [isStudentAvailableS, jsTruthy]
  · intro day time
    simp [isStudentAvailableS, jsTruthy]
  · intro ts tok h hnd
    have hni : ¬ '-' ∈ tok.data := by simpa using hnd
    simp [processTimeToken, hni, h]

/-- C7 (witness): the fail-closed statement applied to a string that parses to
nothing and to an invalid single time token. -/
theorem availability_fail_closed_witness :
    isStudentAvailableC (some "???") none "Monday" "09:00" = false ∧
    processTimeToken ["09:00"] "9x:00" = ["09:00"] := by
  constructor
  · exact availability_fail_closed.2.1 (some "???") "Monday" "09:00" (by decide)
  · exact availability_fail_closed.2.2.2.2.1 ["09:00"] "9x:00" (by decide) (by decide)

/-! ## Client roster lookup side effects (C10) -/

/-- A raw roster record with only a lower-case name. -/
def cexRawRec : StudentRec := { id := 1, name := some (some "A") }

/-- The same record after the lookup's in-place normalisation. -/
def cexNormRec : StudentRec :=
  { id := 1, name := some (some "A"), Name := some (some "A"), groupOf := some 1,
    sub_group := some none, class_name := some none, availability_string := some none }

/-- C10 (counterexample): looking up a student rewrites the roster: the found
record gains Name, groupOf, sub_group, class_name and availability_string
fields in place, so the lookup is not side-effect-free. -/
theorem getStudentDetails_mutates_roster :
    (getStudentDetailsC 1 [cexRawRec]).2 ≠ [cexRawRec] ∧
    (getStudentDetailsC 1 [cexRawRec]).2 = [cexNormRec] ∧
    (getStudentDetailsC 1 [cexRawRec]).1 = .found cexNormRec := by
  refine ⟨by decide, by decide, by decide⟩

lemma replaceFirstNorm_length (i : Int) :
    ∀ l : List StudentRec, (replaceFirstNorm i l).length = l.length := by
  intro l
  induction l with
  | nil => rfl
  | cons s rest ih =>
    unfold replaceFirstNorm
    split_ifs <;> simp [ih]

lemma normalizeRec_of_normalized (s : StudentRec) (h : isNormalizedRec s = true) :
    normalizeRec s = s := by
  rcases s with ⟨i, nN, nm, g, sg, cn, avs, av⟩
  simp only [isNormalizedRec, Bool.and_eq_true, Option.isSome_iff_exists] at h
  obtain ⟨⟨⟨⟨⟨vN, hN⟩, ⟨vg, hg⟩⟩, ⟨vsg, hsg⟩⟩, ⟨vcn, hcn⟩⟩, ⟨vas, has⟩⟩ := h
  subst hN hg hsg hcn has
  rfl

lemma replaceFirstNorm_of_normalized (i : Int) :
    ∀ l : List StudentRec, (∀ s ∈ l, isNormalizedRec s = true) →
      replaceFirstNorm i l = l := by
  intro l
  induction l with
  | nil => intro _; rfl
  | cons s rest ih =>
    intro hall
    unfold replaceFirstNorm
    split_ifs with hid
    · rw [normalizeRec_of_normalized s (hall s (by simp))]
    · rw [ih (fun x hx => hall x (by simp [hx]))]

/-- C10 (amended): the lookup's only side effect is the in-place
normalisation of the first record with the looked-up id: the roster keeps its
length, and a roster whose records already carry all five defaulted fields is
left completely unchanged. -/
theorem getStudentDetails_mutation_scope :
    (∀ (i : Int) (roster : List StudentRec),
      ((getStudentDetailsC i roster).2).length = roster.length) ∧
    (∀ (i : Int) (roster : List StudentRec),
      (∀ s ∈ roster, isNormalizedRec s = true) →
      (getStudentDetailsC i roster).2 = roster) := by
  constructor
  · intro i roster
    unfold getStudentDetailsC
    by_cases he : roster.isEmpty
    · simp [he]
    rcases hf : roster.find? (fun s => s.id = i) with _ | s
    · simp [he, hf]
    by_cases hN : (normalizeRec s).Name = some none <;>
      simp [he, hf, hN, replaceFirstNorm_length]
  · intro i roster hall
    have hrepl : replaceFirstNorm i roster = roster :=
      replaceFirstNorm_of_normalized i roster hall
    unfold getStudentDetailsC
    by_cases he : roster.isEmpty
    · simp [he]
    rcases hf : roster.find? (fun s => s.id = i) with _ | s
    · simp [he, hf]
    by_cases hN : (normalizeRec s).Name = some none <;> simp [he, hf, hN, hrepl]

/-- C10 (witness): the mutation-scope statement applied to a one-record
roster that is already normalised. -/
theorem getStudentDetails_mutation_scope_witness :
    (getStudentDetailsC 1 [cexNormRec]).2 = [cexNormRec] :=
  getStudentDetails_mutation_scope.2 1 [cexNormRec] (by decide)

/-! ## Capacity bounds of the greedy recommender (C1) -/

lemma checkS_false_elim (c : PairStudent) (g : Int) (occ : List PairStudent)
    (cap : Int) (hg : c.groupOf = some g)
    (h : (checkPairingRuleViolationS (some c) (some occ) (some cap)).1 = false) :
    1 ≤ cap ∧ (((occ ++ [c]).length : Int) ≤ cap) ∧
    ¬(0 < countSolo (occ ++ [c]) ∧ (1 : Int) < ((occ ++ [c]).length : Int)) ∧
    ¬(countSolo (occ ++ [c]) = 0 ∧ 0 < countPaired (occ ++ [c]) ∧
      (2 : Int) < ((occ ++ [c]).length : Int)) := by
  simp only [checkPairingRuleViolationS, hg] at h
  split_ifs at h with h1 h2 h3 h4
  exact ⟨by omega, by omega, h3, h4⟩

lemma greedyFill_length_le (capacity needed : Int) (cands : List StudentDetails) :
    ∀ (recs : List RecommendedGroupMember) (occ : List StudentDetails)
      (comp : Option String), recs.length ≤ needed.toNat →
    (greedyFill capacity needed cands recs occ comp).length ≤ needed.toNat := by
  induction cands with
  | nil => intro recs occ comp hr; exact hr
  | cons c rest ih =>
    intro recs occ comp hr
    simp only [greedyFill]
    split_ifs with h1 h2 h3 h4
    · exact hr
    · exact ih recs occ comp hr
    · exact ih recs occ comp hr
    · refine ih _ _ _ ?_
      have hlt : (recs.length : Int) < needed := lt_of_not_ge h1
      simp only [List.length_append, List.length_singleton]
      omega
    · refine ih _ _ _ ?_
      have hlt : (recs.length : Int) < needed := lt_of_not_ge h1
      simp only [List.length_append, List.length_singleton]
      omega

lemma greedyFill_of_solo (capacity needed : Int) (cands : List StudentDetails) :
    ∀ (recs : List RecommendedGroupMember) (occ : List StudentDetails)
      (comp : Option String), (∃ d ∈ occ, d.groupOf = 1) →
    greedyFill capacity needed cands recs occ comp = recs := by
  induction cands with
  | nil => intro recs occ comp _; rfl
  | cons c rest ih =>
    intro recs occ comp hocc
    have hviol : (checkPairingRuleViolationS (some (toPair c))
        (some (occ.map toPair)) (some capacity)).1 = true := by
      apply checkS_true_of_solo
      obtain ⟨d, hd, h1⟩ := hocc
      exact ⟨toPair d, List.mem_map_of_mem _ hd, by simp [toPair, h1]⟩
    simp only [greedyFill]
    split_ifs with h1 h2
    · rfl
    · exact ih recs occ comp hocc
    · exact ih recs occ comp hocc

lemma paired_accept_facts (c : StudentDetails) (occ : List StudentDetails)
    (capacity : Int) (hp : ∃ d ∈ occ, d.groupOf = 2) (hs : ∀ d ∈ occ, d.groupOf ≠ 1)
    (h3 : ¬ (checkPairingRuleViolationS (some (toPair c)) (some (occ.map toPair))
      (some capacity)).1 = true) :
    occ.length = 1 ∧ c.groupOf ≠ 1 := by
  obtain ⟨d, hd, hd2⟩ := hp
  have hocc1 : 1 ≤ occ.length := List.length_pos.mpr (by rintro rfl; simp at hd)
  have hfalse : (checkPairingRuleViolationS (some (toPair c))
      (some (occ.map toPair)) (some capacity)).1 = false :=
    Bool.not_eq_true _ ▸ h3
  have hfacts := checkS_false_elim (toPair c) c.groupOf
    (occ.map toPair) capacity rfl hfalse
  have hlen : ((occ.map toPair ++ [toPair c]).length : Int) =
      (occ.length : Int) + 1 := by
    simp [List.length_append]
  have hc1 : c.groupOf ≠ 1 := by
    intro hc
    exact hfacts.2.2.1 ⟨List.countP_pos_iff.mpr
      ⟨toPair c, List.mem_append_right _ (by simp), by simp [toPair, hc]⟩,
      by omega⟩
  have hz : countSolo (occ.map toPair ++ [toPair c]) = 0 := by
    apply List.countP_eq_zero.mpr
    intro x hx
    rcases List.mem_append.mp hx with hx | hx
    · obtain ⟨e, he, rfl⟩ := List.mem_map.mp hx
      simp [toPair, hs e he]
    · simp only [List.mem_singleton] at hx
      subst hx
      simp [toPair, hc1]
  have hpx : 0 < countPaired (occ.map toPair ++ [toPair c]) :=
    List.countP_pos_iff.mpr
      ⟨toPair d, List.mem_append_left _ (List.mem_map_of_mem _ hd),
        by simp [toPair, hd2]⟩
  refine ⟨?_, hc1⟩
  by_contra hne
  exact hfacts.2.2.2 ⟨hz, hpx, by omega⟩

lemma greedyFill_of_paired (capacity needed : Int) (cands : List StudentDetails) :
    ∀ (recs : List RecommendedGroupMember) (occ : List StudentDetails)
      (comp : Option String),
    (∃ d ∈ occ, d.groupOf = 2) → (∀ d ∈ occ, d.groupOf ≠ 1) →
    (greedyFill capacity needed cands recs occ comp).length ≤
      recs.length + (2 - occ.length) := by
  induction cands with
  | nil => intro recs occ comp _ _; exact Nat.le_add_right _ _
  | cons c rest ih =>
    intro recs occ comp hp hs
    obtain ⟨d, hd, hd2⟩ := hp
    have hnosolo2 : ∀ hc1 : c.groupOf ≠ 1, ∀ e ∈ occ ++ [c], e.groupOf ≠ 1 := by
      intro hc1 e he
      rcases List.mem_append.mp he with he | he
      · exact hs e he
      · simp only [List.mem_singleton] at he
        subst he
        exact hc1
    simp only [greedyFill]
    split_ifs with h1 h2 h3 h4
    · exact Nat.le_add_right _ _
    · exact ih recs occ comp ⟨d, hd, hd2⟩ hs
    · exact ih recs occ comp ⟨d, hd, hd2⟩ hs
    · obtain ⟨hlen2, hc1⟩ := paired_accept_facts c occ capacity ⟨d, hd, hd2⟩ hs h3
      have hb := ih (recs ++ [toMember c]) (occ ++ [c]) c.subGroup
        ⟨d, List.mem_append_left _ hd, hd2⟩ (hnosolo2 hc1)
      simp only [List.length_append, List.length_singleton] at hb ⊢
      omega
    · obtain ⟨hlen2, hc1⟩ := paired_accept_facts c occ capacity ⟨d, hd, hd2⟩ hs h3
      have hb := ih (recs ++ [toMember c]) (occ ++ [c]) comp
        ⟨d, List.mem_append_left _ hd, hd2⟩ (hnosolo2 hc1)
      simp only [List.length_append, List.length_singleton] at hb ⊢
      omega

lemma capacity_accept_fact (c : StudentDetails) (occ : List StudentDetails)
    (capacity : Int)
    (h3 : ¬ (checkPairingRuleViolationS (some (toPair c)) (some (occ.map toPair))
      (some capacity)).1 = true) :
    occ.length + 1 ≤ capacity.toNat := by
  have hfalse : (checkPairingRuleViolationS (some (toPair c))
      (some (occ.map toPair)) (some capacity)).1 = false :=
    Bool.not_eq_true _ ▸ h3
  have hfacts := checkS_false_elim (toPair c) c.groupOf
    (occ.map toPair) capacity rfl hfalse
  have h2 := hfacts.2.1
  have hlen : ((occ.map toPair ++ [toPair c]).length : Int) =
      (occ.length : Int) + 1 := by
    simp [List.length_append]
  omega

lemma greedyFill_le_capacity (capacity needed : Int) (cands : List StudentDetails) :
    ∀ (recs : List RecommendedGroupMember) (occ : List StudentDetails)
      (comp : Option String),
    (greedyFill capacity needed cands recs occ comp).length ≤
      recs.length + (capacity.toNat - occ.length) := by
  induction cands with
  | nil => intro recs occ comp; exact Nat.le_add_right _ _
  | cons c rest ih =>
    intro recs occ comp
    simp only [greedyFill]
    split_ifs with h1 h2 h3 h4
    · exact Nat.le_add_right _ _
    · exact ih recs occ comp
    · exact ih recs occ comp
    · have hcap := capacity_accept_fact c occ capacity h3
      have hb := ih (recs ++ [toMember c]) (occ ++ [c]) c.subGroup
      simp only [List.length_append, List.length_singleton] at hb ⊢
      omega
    · have hcap := capacity_accept_fact c occ capacity h3
      have hb := ih (recs ++ [toMember c]) (occ ++ [c]) comp
      simp only [List.length_append, List.length_singleton] at hb ⊢
      omega

/-- Roster for the C1 counterexample: Alice is a paired original student (owing
nothing), Bob is a paired candidate owing lessons. -/
def cexRoster1 : List StudentRow :=
  [{ id := 1, Name := some "Alice", groupOf := some 2, lessons_owed := some 0 },
   { id := 2, Name := some "Bob", groupOf := some 2, lessons_owed := some 5,
     availability_string := some "Monday: 09:00" }]

/-- Slot for the C1 counterexample: Alice's paired slot, Alice absent, two
fill-ins already occupy it (reported occupant count 2), stored capacity 3. -/
def cexSlot1 : SlotInfo :=
  { schedule_id := 10, day_of_week := "Monday", start_time := "09:00:00",
    capacity := 3, coach_id := 1, original_student_ids := [1],
    current_occupants := 2, slot_date := some "2025-05-05" }

/-- C1 (counterexample): the recommender still recommends Bob for this slot
(the pairing check runs against the original roster, not the reported
occupants, and the capacity check uses the stored capacity), so current
occupants plus recommendations is 3, exceeding the effective capacity 2 of a
paired slot. -/
theorem recommender_exceeds_effective_capacity :
    (processSlot cexSlot1 cexRoster1 []).map
      (fun r => (r.recommended_group.length : Int)) = some 1 ∧
    effectiveCapacitySpec (existingDetails cexSlot1 cexRoster1) cexSlot1.capacity = 2 ∧
    ¬ (cexSlot1.current_occupants + 1 ≤
        effectiveCapacitySpec (existingDetails cexSlot1 cexRoster1) cexSlot1.capacity) := by
  refine ⟨by decide, by decide, by decide⟩

/-- C1 (amended): for every emitted slot the recommendation count is bounded
by the stored capacity minus the reported occupant count, and by the
effective capacity (computed from the resolved original students) minus the
number of resolved original students; in particular a slot with a solo
original occupant never receives any fill-in recommendation (so the solo-lock
scenario holds with zero, hence at most one, recommendations). -/
theorem recommender_capacity_bounds :
    ∀ (slot : SlotInfo) (allStudentsData : List StudentRow)
      (blocks : List DailyBlock) (res : ResultSlot),
      processSlot slot allStudentsData blocks = some res →
      res.recommended_group.length ≤ (slot.capacity - slot.current_occupants).toNat ∧
      res.recommended_group.length ≤
        (effectiveCapacitySpec (existingDetails slot allStudentsData)
          slot.capacity).toNat - (existingDetails slot allStudentsData).length ∧
      ((∃ d ∈ existingDetails slot allStudentsData, d.groupOf = 1) →
        res.recommended_group = []) := by
  intro slot allStudentsData blocks res h
  simp only [processSlot] at h
  split_ifs at h with hneed
  cases h
  refine ⟨?_, ?_, ?_⟩
  · have hb := greedyFill_length_le slot.capacity (slot.capacity - slot.current_occupants)
      (sortCandidates (candidatesForSlot slot allStudentsData blocks
        (targetSubGroupOf (existingDetails slot allStudentsData)))) []
      (existingDetails slot allStudentsData)
      (targetSubGroupOf (existingDetails slot allStudentsData)) (Nat.zero_le _)
    simpa using hb
  · by_cases hsolo : ∃ d ∈ existingDetails slot allStudentsData, d.groupOf = 1
    · rw [greedyFill_of_solo _ _ _ _ _ _ hsolo]
      simp
    · by_cases hpair : ∃ d ∈ existingDetails slot allStudentsData, d.groupOf = 2
      · have hs : ∀ d ∈ existingDetails slot allStudentsData, d.groupOf ≠ 1 := by
          intro d hd
          exact fun hc => hsolo ⟨d, hd, hc⟩
        have hb := greedyFill_of_paired slot.capacity
          (slot.capacity - slot.current_occupants)
          (sortCandidates (candidatesForSlot slot allStudentsData blocks
            (targetSubGroupOf (existingDetails slot allStudentsData))))
          [] (existingDetails slot allStudentsData)
          (targetSubGroupOf (existingDetails slot allStudentsData)) hpair hs
        have heff : effectiveCapacitySpec (existingDetails slot allStudentsData)
            slot.capacity = 2 := by
          unfold effectiveCapacitySpec
          rw [if_neg, if_pos]
          · obtain ⟨d, hd, hd2⟩ := hpair
            exact List.any_eq_true.mpr ⟨d, hd, by simp [hd2]⟩
          · intro hany
            obtain ⟨d, hd, hd1⟩ := List.any_eq_true.mp hany
            exact hsolo ⟨d, hd, by simpa using hd1⟩
        rw [heff]
        simpa using hb
      · have heff : effectiveCapacitySpec (existingDetails slot allStudentsData)
            slot.capacity = slot.capacity := by
          unfold effectiveCapacitySpec
          rw [if_neg, if_neg]
          · intro hany
            obtain ⟨d, hd, hd2⟩ := List.any_eq_true.mp hany
            exact hpair ⟨d, hd, by simpa using hd2⟩
          · intro hany
            obtain ⟨d, hd, hd1⟩ := List.any_eq_true.mp hany
            exact hsolo ⟨d, hd, by simpa using hd1⟩
        rw [heff]
        have hb := greedyFill_le_capacity slot.capacity
          (slot.capacity - slot.current_occupants)
          (sortCandidates (candidatesForSlot slot allStudentsData blocks
            (targetSubGroupOf (existingDetails slot allStudentsData))))
          [] (existingDetails slot allStudentsData)
          (targetSubGroupOf (existingDetails slot allStudentsData))
        simpa using hb
  · intro hsolo
    exact greedyFill_of_solo _ _ _ _ _ _ hsolo

/-- Slot for the C1 witness. -/
def wSlot1 : SlotInfo :=
  { schedule_id := 20, day_of_week := "Monday", start_time := "09:00:00",
    capacity := 2, coach_id := 1, original_student_ids := [],
    current_occupants := 0, slot_date := some "2025-05-05" }

/-- Roster for the C1 witness. -/
def wRoster1 : List StudentRow :=
  [{ id := 5, Name := some "Eve", groupOf := some 3, lessons_owed := some 4,
     availability_string := some "Monday: 09:00" }]

/-- Recommended member of the C1 witness output. -/
def wMember1 : RecommendedGroupMember :=
  { student_id := 5, name := "Eve", lessons_owed := 4, groupOf := 3, subGroup := none }

/-- Output slot for the C1 witness. -/
def wRes1 : ResultSlot :=
  { schedule_id := 20, day_of_week := "Monday", start_time := "09:00",
    capacity := 2, coach_id := 1, original_student_ids := [],
    current_occupants := 0, slot_date := some "2025-05-05",
    recommended_group := [wMember1] }

/-- C1 (witness): the amended bounds applied to a concrete emitted slot. -/
theorem recommender_capacity_bounds_witness :
    wRes1.recommended_group.length ≤ (wSlot1.capacity - wSlot1.current_occupants).toNat ∧
    wRes1.recommended_group.length ≤
      (effectiveCapacitySpec (existingDetails wSlot1 wRoster1) wSlot1.capacity).toNat -
        (existingDetails wSlot1 wRoster1).length ∧
    ((∃ d ∈ existingDetails wSlot1 wRoster1, d.groupOf = 1) →
      wRes1.recommended_group = []) :=
  recommender_capacity_bounds wSlot1 wRoster1 [] wRes1 (by decide)

end CoachTool
